import Mathlib

/-!
Verification of the Spectron repository (Hamamatsu C12666MA spectrometer
driver, `src/firmware/Spectron_12666/C12666MA.cpp`, and the colorimetry
module `src/software/common/spectron_cct.cpp`).

Shallow embedding conventions:
* machine integers (`uint32_t`, `uint8_t`, `int`) are modelled as `ℕ`
  (overflow is noted where it could matter, and shown unreachable on the
  paths the claims are about);
* `float`/`double` arithmetic is modelled exactly over `ℚ`;
* the fixed pixel count `SPEC_PIXELS` (defined in the board header, which
  is not part of the sources) is kept as an explicit parameter `nPixels`;
  the spec's end-to-end scenarios instantiate it at 256;
* the firmware is built without `ADC_AVG_4` (the 2-read configuration of
  `C12666MA.cpp`), so `SPEC_CLK_TICK_TIMER = 50` 100ns units per tick.
-/

namespace Spectron

/-- `TICKS_PER_PIXEL` from C12666MA.cpp line 107. -/
def TICKS_PER_PIXEL : ℕ := 8

/-- `MIN_INTEG_TIME_US` from C12666MA.cpp line 108. -/
def MIN_INTEG_TIME_US : ℕ := 1000

/-- `MAX_INTEG_TIME_US` from C12666MA.cpp line 109. -/
def MAX_INTEG_TIME_US : ℕ := 10000000

/-- `DEF_LEAD_TICKS` from C12666MA.cpp line 110. -/
def DEF_LEAD_TICKS : ℕ := 64

/-- `TRAIL_TICKS` from C12666MA.cpp line 111. -/
def TRAIL_TICKS : ℕ := 12

/-- `SPEC_CLK_TICK_TIMER` from C12666MA.cpp line 90 (2-read ADC build). -/
def SPEC_CLK_TICK_TIMER : ℕ := 50

/-- `TIMER_US_FACTOR` from C12666MA.cpp line 80. -/
def TIMER_US_FACTOR : ℕ := 10

/-- Macro `uSecToTicks(x)` from C12666MA.cpp line 95 (integer division). -/
def uSecToTicks (x : ℕ) : ℕ := x * TIMER_US_FACTOR / SPEC_CLK_TICK_TIMER

/-- Macro `ticksToUsec(x)` from C12666MA.cpp line 94 (integer division). -/
def ticksToUsec (x : ℕ) : ℕ := x * SPEC_CLK_TICK_TIMER / TIMER_US_FACTOR

/-- `READ_TICKS` from C12666MA.cpp line 112, parameterised by `SPEC_PIXELS`. -/
def READ_TICKS (nPixels : ℕ) : ℕ := nPixels * TICKS_PER_PIXEL + TRAIL_TICKS

/-- `EXT_TRG_HIGH_TICKS` from C12666MA.cpp line 113 (= 200 ticks). -/
def EXT_TRG_HIGH_TICKS : ℕ := uSecToTicks 1000

/-- `ADC_MAX_VALUE` (`UINT16_MAX`) from C12666MA.cpp line 98. -/
def ADC_MAX_VALUE : ℕ := 65535

/-- `ST_BIT` from C12666MA.cpp line 123. -/
def ST_BIT : ℕ := 1

/-- `READY_BIT` from C12666MA.cpp line 124. -/
def READY_BIT : ℕ := 2

/-- Saturation voltage bounds from C12666MA.cpp lines 50-53. -/
def MIN_SAT_VOLTAGE_HIGH_GAIN : ℚ := 23/10

/-- Upper Hamamatsu bound for the high-gain saturation voltage. -/
def MAX_SAT_VOLTAGE_HIGH_GAIN : ℚ := 4

/-- Lower Hamamatsu bound for the no-gain saturation voltage. -/
def MIN_SAT_VOLTAGE_NO_GAIN : ℚ := 14/10

/-- Upper Hamamatsu bound for the no-gain saturation voltage. -/
def MAX_SAT_VOLTAGE_NO_GAIN : ℚ := 27/10

/-!
## Waveform table (`initSpecTimerData`, C12666MA.cpp lines 368-382)

The C code fills `specRead[READ_TICKS]` with `0 | ST_BIT`, clears the
`ST_BIT` at indices 0 and 1, and then sets the `READY_BIT` with the loop
`for (int i=7; i<SPEC_PIXELS*TICKS_PER_PIXEL+1; i+=TICKS_PER_PIXEL)`.
That loop touches exactly the indices `i` with `7 ≤ i`,
`i < nPixels*TICKS_PER_PIXEL + 1` and `(i - 7) % TICKS_PER_PIXEL = 0`,
which is the per-index rendering used below.
-/

/-- Value of `specRead[i]` after `initSpecTimerData` ran. -/
def specReadEntry (nPixels i : ℕ) : ℕ :=
  let st := if i = 0 ∨ i = 1 then 0 else ST_BIT
  let ready :=
    if 7 ≤ i ∧ i < nPixels * TICKS_PER_PIXEL + 1 ∧ (i - 7) % TICKS_PER_PIXEL = 0
    then READY_BIT else 0
  st + ready

/-- The `specRead` array after `initSpecTimerData` ran. -/
def specRead (nPixels : ℕ) : List ℕ := (List.range (READ_TICKS nPixels)).map (specReadEntry nPixels)

/-- Test of the `READY_BIT` in a table entry. -/
def readyBitSet (e : ℕ) : Bool := e / 2 % 2 = 1

/-- Test of the `ST_BIT` in a table entry. -/
def stBitSet (e : ℕ) : Bool := e % 2 = 1

theorem specRead_getD (nPixels i : ℕ) (h : i < READ_TICKS nPixels) :
    (specRead nPixels).getD i 0 = specReadEntry nPixels i := by
  simp [specRead, List.getD_eq_getElem?_getD, List.getElem?_map, List.getElem?_range, h]

theorem readyBitSet_specReadEntry (nPixels i : ℕ) :
    readyBitSet (specReadEntry nPixels i) = true ↔
      7 ≤ i ∧ i < nPixels * TICKS_PER_PIXEL + 1 ∧ (i - 7) % TICKS_PER_PIXEL = 0 := by
  unfold readyBitSet specReadEntry ST_BIT READY_BIT
  split_ifs with h1 h2 h2 <;> simp_all

theorem readyAt_iff (nPixels i : ℕ) (h : i < READ_TICKS nPixels) :
    readyBitSet ((specRead nPixels).getD i 0) = true ↔
      ∃ k < nPixels, i = 7 + TICKS_PER_PIXEL * k := by
  rw [specRead_getD nPixels i h, readyBitSet_specReadEntry]
  simp only [TICKS_PER_PIXEL, READ_TICKS, TRAIL_TICKS] at *
  constructor
  · rintro ⟨h7, hlt, hmod⟩
    refine ⟨(i - 7) / 8, by omega, by omega⟩
  · rintro ⟨k, hk, rfl⟩
    omega

/-- C2: after `initSpecTimerData`, the waveform table `specRead` has length
`nPixels·TICKS_PER_PIXEL + TRAIL_TICKS`; the set of indices carrying the
ready bit is exactly `{7 + TICKS_PER_PIXEL·k | k < nPixels}` (so there are
exactly `nPixels` ready entries, spaced exactly `TICKS_PER_PIXEL` apart
starting at index 7), and the first two entries have the ST bit cleared. -/
theorem c2_waveformTable_spec (nPixels : ℕ) :
    (specRead nPixels).length = nPixels * TICKS_PER_PIXEL + TRAIL_TICKS ∧
    ((Finset.range (specRead nPixels).length).filter
        (fun i => readyBitSet ((specRead nPixels).getD i 0) = true)).card = nPixels ∧
    (∀ i < (specRead nPixels).length,
        (readyBitSet ((specRead nPixels).getD i 0) = true ↔
          ∃ k < nPixels, i = 7 + TICKS_PER_PIXEL * k)) ∧
    stBitSet ((specRead nPixels).getD 0 0) = false ∧
    stBitSet ((specRead nPixels).getD 1 0) = false := by
  have hlen : (specRead nPixels).length = READ_TICKS nPixels := by
    simp [specRead]
  refine ⟨by simpa [READ_TICKS] using hlen, ?_, ?_, ?_, ?_⟩
  · rw [hlen]
    have himg : (Finset.range (READ_TICKS nPixels)).filter
        (fun i => readyBitSet ((specRead nPixels).getD i 0) = true) =
        (Finset.range nPixels).image (fun k => 7 + TICKS_PER_PIXEL * k) := by
      ext i
      simp only [Finset.mem_filter, Finset.mem_range, Finset.mem_image]
      constructor
      · rintro ⟨hi, hr⟩
        obtain ⟨k, hk, rfl⟩ := (readyAt_iff nPixels i hi).mp hr
        exact ⟨k, hk, rfl⟩
      · rintro ⟨k, hk, rfl⟩
        have hi : 7 + TICKS_PER_PIXEL * k < READ_TICKS nPixels := by
          simp only [TICKS_PER_PIXEL, READ_TICKS, TRAIL_TICKS]
          omega
        exact ⟨hi, (readyAt_iff nPixels _ hi).mpr ⟨k, hk, rfl⟩⟩
    rw [himg, Finset.card_image_of_injective _ (fun a b hab => by
      simp only [TICKS_PER_PIXEL] at hab; omega)]
    exact Finset.card_range nPixels
  · intro i hi
    exact readyAt_iff nPixels i (hlen ▸ hi)
  · have h0 : (0 : ℕ) < READ_TICKS nPixels := by simp only [READ_TICKS, TRAIL_TICKS, TICKS_PER_PIXEL]; omega
    rw [specRead_getD nPixels 0 h0]
    simp [specReadEntry, stBitSet, ST_BIT, READY_BIT]
  · have h1 : (1 : ℕ) < READ_TICKS nPixels := by simp only [READ_TICKS, TRAIL_TICKS, TICKS_PER_PIXEL]; omega
    rw [specRead_getD nPixels 1 h1]
    simp [specReadEntry, stBitSet, ST_BIT, READY_BIT]

/-!
## Measurement processor (`C12666MA::processMeasurement`, lines 951-980)

`data[]` holds per-pixel `uint32_t` sums and `dataCounts[]` per-pixel
`uint8_t` sample counts (at most 4, so `dataCounts[i]*ADC_MAX_VALUE`
never overflows the int arithmetic of the source). The two parallel
fixed-length arrays are modelled as one list of `(sum, count)` pairs.
`float` arithmetic is modelled exactly over `ℚ`.
-/

/-- `measure_t` from C12666MA.h (used at lines 964-972). -/
inductive measure_t
  | MEASURE_RELATIVE
  | MEASURE_VOLTAGE
  | MEASURE_ABSOLUTE
deriving DecidableEq, Repr

/-- One pixel of the loop body of `processMeasurement` (lines 960-973). -/
def pixelMeasurement (mType : measure_t) (adcRefVoltage satVoltage : ℚ) (S C : ℕ) : ℚ :=
  if C = 0 then 0
  else
    match mType with
    | .MEASURE_VOLTAGE => ((S : ℚ) * adcRefVoltage) / ((C : ℚ) * (ADC_MAX_VALUE : ℚ))
    | .MEASURE_ABSOLUTE => ((S : ℚ) * adcRefVoltage) / (satVoltage * (C : ℚ) * (ADC_MAX_VALUE : ℚ))
    | .MEASURE_RELATIVE => (S : ℚ) / ((C : ℚ) * (ADC_MAX_VALUE : ℚ))

/-- `C12666MA::processMeasurement`: returns the measurement vector and the
running maximum `maxVal` (initialised to `0.0`, updated by
`if (measurement[i] > maxVal) maxVal = measurement[i]`). -/
def processMeasurement (mType : measure_t) (adcRefVoltage satVoltage : ℚ)
    (raw : List (ℕ × ℕ)) : List ℚ × ℚ :=
  let meas := raw.map (fun sc => pixelMeasurement mType adcRefVoltage satVoltage sc.1 sc.2)
  (meas, meas.foldl (fun maxVal v => if maxVal < v then v else maxVal) 0)

theorem le_foldl_runmax (l : List ℚ) (a : ℚ) :
    a ≤ l.foldl (fun m v => if m < v then v else m) a := by
  induction l generalizing a with
  | nil => simp
  | cons x xs ih =>
    simp only [List.foldl_cons]
    refine le_trans ?_ (ih (if a < x then x else a))
    split <;> simp_all [le_of_lt]

theorem foldl_runmax_le (l : List ℚ) (a : ℚ) :
    ∀ v ∈ l, v ≤ l.foldl (fun m v => if m < v then v else m) a := by
  induction l generalizing a with
  | nil => simp
  | cons x xs ih =>
    intro v hv
    rcases List.mem_cons.mp hv with rfl | hv
    · simp only [List.foldl_cons]
      refine le_trans ?_ (le_foldl_runmax xs (if a < v then v else a))
      split <;> simp_all [le_of_not_lt]
    · exact ih _ v hv

theorem foldl_runmax_mem (l : List ℚ) (a : ℚ) :
    l.foldl (fun m v => if m < v then v else m) a = a ∨
      l.foldl (fun m v => if m < v then v else m) a ∈ l := by
  induction l generalizing a with
  | nil => simp
  | cons x xs ih =>
    simp only [List.foldl_cons]
    by_cases h : a < x
    · rw [if_pos h]
      rcases ih x with h' | h'
      · exact Or.inr (by simp [h'])
      · exact Or.inr (List.mem_cons_of_mem _ h')
    · rw [if_neg h]
      rcases ih a with h' | h'
      · exact Or.inl h'
      · exact Or.inr (List.mem_cons_of_mem _ h')

theorem pixelMeasurement_nonneg (mType : measure_t) (adcRefVoltage satVoltage : ℚ)
    (S C : ℕ) (href : 0 ≤ adcRefVoltage) (hsat : 0 ≤ satVoltage) :
    0 ≤ pixelMeasurement mType adcRefVoltage satVoltage S C := by
  unfold pixelMeasurement
  split
  · exact le_refl 0
  · cases mType <;>
      exact div_nonneg (by positivity) (by positivity)

/-- C1: for every pixel `i`, `processMeasurement` sets `measurement[i]` to 0
when `dataCounts[i] = 0` and otherwise to `S/(C·65535)` for Relative,
`S·Vref/(C·65535)` for Voltage, `S·Vref/(C·65535·Vsat)` for Absolute; the
returned value is the maximum of the per-pixel values (it is one of them,
and no per-pixel value exceeds it). Hypotheses: the reference voltage is
one of the four positive `adcVoltages` table values and the stored
saturation voltage is positive (both always hold in the driver). -/
theorem c1_processMeasurement_spec (mType : measure_t) (adcRefVoltage satVoltage : ℚ)
    (raw : List (ℕ × ℕ)) (href : 0 ≤ adcRefVoltage) (hsat : 0 < satVoltage)
    (hne : raw ≠ []) :
    (∀ i, (h : i < raw.length) →
      (processMeasurement mType adcRefVoltage satVoltage raw).1.getD i 0 =
        (if (raw.get ⟨i, h⟩).2 = 0 then 0
         else
           match mType with
           | .MEASURE_RELATIVE =>
               ((raw.get ⟨i, h⟩).1 : ℚ) / (((raw.get ⟨i, h⟩).2 : ℚ) * 65535)
           | .MEASURE_VOLTAGE =>
               ((raw.get ⟨i, h⟩).1 : ℚ) * adcRefVoltage / (((raw.get ⟨i, h⟩).2 : ℚ) * 65535)
           | .MEASURE_ABSOLUTE =>
               ((raw.get ⟨i, h⟩).1 : ℚ) * adcRefVoltage /
                 (satVoltage * ((raw.get ⟨i, h⟩).2 : ℚ) * 65535))) ∧
    (processMeasurement mType adcRefVoltage satVoltage raw).2 ∈
      (processMeasurement mType adcRefVoltage satVoltage raw).1 ∧
    (∀ v ∈ (processMeasurement mType adcRefVoltage satVoltage raw).1,
      v ≤ (processMeasurement mType adcRefVoltage satVoltage raw).2) := by
  refine ⟨?_, ?_, ?_⟩
  · intro i h
    have hm : (processMeasurement mType adcRefVoltage satVoltage raw).1.getD i 0
        = pixelMeasurement mType adcRefVoltage satVoltage
            (raw.get ⟨i, h⟩).1 (raw.get ⟨i, h⟩).2 := by
      simp [processMeasurement, List.getD_eq_getElem?_getD, List.getElem?_map,
        List.getElem?_eq_getElem h]
    rw [hm]
    unfold pixelMeasurement
    cases mType <;> simp only [ADC_MAX_VALUE] <;> split <;> push_cast <;> ring_nf
  · rcases foldl_runmax_mem
      (raw.map fun sc => pixelMeasurement mType adcRefVoltage satVoltage sc.1 sc.2) 0 with
      h0 | hmem
    · obtain ⟨sc, rest, hraw⟩ : ∃ sc rest, raw = sc :: rest := by
        cases raw with
        | nil => exact absurd rfl hne
        | cons a l => exact ⟨a, l, rfl⟩
      have hhead : pixelMeasurement mType adcRefVoltage satVoltage sc.1 sc.2 ∈
          raw.map fun sc => pixelMeasurement mType adcRefVoltage satVoltage sc.1 sc.2 := by
        simp [hraw]
      have hle := foldl_runmax_le
        (raw.map fun sc => pixelMeasurement mType adcRefVoltage satVoltage sc.1 sc.2) 0 _ hhead
      have hge := pixelMeasurement_nonneg mType adcRefVoltage satVoltage sc.1 sc.2 href
        (le_of_lt hsat)
      have : pixelMeasurement mType adcRefVoltage satVoltage sc.1 sc.2 = 0 := by
        rw [h0] at hle
        exact le_antisymm hle hge
      show (processMeasurement mType adcRefVoltage satVoltage raw).2 ∈ _
      simp only [processMeasurement]
      rw [h0, ← this]
      exact hhead
    · exact hmem
  · intro v hv
    exact foldl_runmax_le _ 0 v hv

/-- Witness for C1: measuring `[(100, 2)]` at 5V reference, 2V saturation,
voltage mode yields the single value `100·5/(2·65535)` which is also the
returned maximum. -/
theorem c1_processMeasurement_witness :
    ((0 : ℚ) ≤ 5) ∧ ((0 : ℚ) < 2) ∧ ([((100 : ℕ), (2 : ℕ))] ≠ []) ∧
    ((processMeasurement .MEASURE_VOLTAGE 5 2 [(100, 2)]).2 ∈
      (processMeasurement .MEASURE_VOLTAGE 5 2 [(100, 2)]).1 ∧
     ∀ v ∈ (processMeasurement .MEASURE_VOLTAGE 5 2 [(100, 2)]).1,
       v ≤ (processMeasurement .MEASURE_VOLTAGE 5 2 [(100, 2)]).2) :=
  ⟨by norm_num, by norm_num, by simp,
    (c1_processMeasurement_spec .MEASURE_VOLTAGE 5 2 [(100, 2)]
      (by norm_num) (by norm_num) (by simp)).2⟩

/-!
## Auto-measurement integration search (`C12666MA::takeAutoMeasurement`,
loop body at lines 1124-1142)

One iteration of the integration-adjustment branch. `INTEG_TICKS` and
`intTicksStep` are `uint32_t`; the float product
`(satVoltage-maxMeasuredVoltage)*(INTEG_TICKS+READ_TICKS)/maxMeasuredVoltage`
is truncated towards zero on assignment to `uint32_t`; for the reachable
values (`0 < maxMeasuredVoltage < satVoltage`) it is nonnegative, so the
truncation is `floorNat`.
-/

/-- Truncation of a nonnegative rational to a natural number (the float to
`uint32_t` conversion of the source). -/
def floorNat (q : ℚ) : ℕ := (⌊q⌋).toNat

/-- One iteration of the `INTEG_TICKS` update in `takeAutoMeasurement`
(lines 1124-1136), before the `[min,max]` clamp: given the target
(`satVoltage` after the 0.99 scaling), the measured peak, the current
`INTEG_TICKS`, `READ_TICKS` and the previous `intTicksStep`, returns the
new `(INTEG_TICKS, intTicksStep)`. -/
def autoIntegStep (satVoltage maxMeasuredVoltage : ℚ)
    (integTicks readTicks intTicksStep : ℕ) : ℕ × ℕ :=
  if maxMeasuredVoltage < satVoltage then
    let step := floorNat ((satVoltage - maxMeasuredVoltage) *
      (((integTicks : ℚ) + (readTicks : ℚ))) / maxMeasuredVoltage)
    (integTicks + step, step)
  else
    let step := intTicksStep / 2
    (if integTicks < step then 0 else integTicks - step, step)

/-- The step claimed by C3 for the below-target branch, built from the
claim's words: `step = (target − peak) × currentIntegrationTicks / peak`
where `currentIntegrationTicks` is the integration tick count being
incremented. Kept only to compare with the source behaviour. -/
def claimAutoIntegStepUp (target peak : ℚ) (integTicks : ℕ) : ℕ :=
  floorNat ((target - peak) * (integTicks : ℚ) / peak)

/-- Counterexample to C3: with target 2V, peak 1V, `INTEG_TICKS = 100` and
`READ_TICKS = 2060` (a 256-pixel sensor), the code takes a step of
`(2-1)·(100+2060)/1 = 2160` ticks, not the claimed
`(2-1)·100/1 = 100` ticks. -/
theorem c3_step_counterexample :
    (autoIntegStep 2 1 100 2060 0).2 = 2160 ∧
    claimAutoIntegStepUp 2 1 100 = 100 ∧
    (2160 : ℕ) ≠ 100 := by
  refine ⟨?_, ?_, by norm_num⟩
  · have h1 : ((2 : ℚ) - 1) * (((100 : ℕ) : ℚ) + ((2060 : ℕ) : ℚ)) / 1 = 2160 := by
      norm_num
    simp only [autoIntegStep, if_pos (by norm_num : (1 : ℚ) < 2), floorNat, h1]
    rfl
  · have h1 : ((2 : ℚ) - 1) * ((100 : ℕ) : ℚ) / 1 = 100 := by norm_num
    simp only [claimAutoIntegStepUp, floorNat, h1]
    rfl

/-- C3 (amended): on every iteration with peak strictly below the target,
the step is `(target − peak) × (integrationTicks + READ_TICKS) / peak`
(truncated to an integer) and is added to the integration tick count —
the multiplier is the full current exposure `INTEG_TICKS + READ_TICKS`,
not `INTEG_TICKS` alone; on every iteration with peak at or above the
target the previous step is halved (shift right by one) and subtracted,
floored at 0. -/
theorem c3_autoIntegStep_amended (sat maxV : ℚ) (integTicks readTicks step : ℕ) :
    (maxV < sat →
      autoIntegStep sat maxV integTicks readTicks step =
        (integTicks + floorNat ((sat - maxV) * ((integTicks : ℚ) + (readTicks : ℚ)) / maxV),
         floorNat ((sat - maxV) * ((integTicks : ℚ) + (readTicks : ℚ)) / maxV))) ∧
    (sat ≤ maxV →
      ((autoIntegStep sat maxV integTicks readTicks step).1 : ℤ) =
          max 0 ((integTicks : ℤ) - (step / 2 : ℕ)) ∧
        (autoIntegStep sat maxV integTicks readTicks step).2 = step / 2) := by
  constructor
  · intro h
    simp [autoIntegStep, if_pos h]
  · intro h
    have hnot : ¬ maxV < sat := not_lt.mpr h
    refine ⟨?_, by simp [autoIntegStep, if_neg hnot]⟩
    simp only [autoIntegStep, if_neg hnot]
    split <;> rename_i hlt <;> omega

/-- Witness for C3 (amended): target 2V, peak 1V, 100 ticks, 2060 read
ticks takes the below-target branch and lands on 2260 ticks. -/
theorem c3_autoIntegStep_witness :
    ((1 : ℚ) < 2) ∧
    autoIntegStep 2 1 100 2060 0 =
      (100 + floorNat (((2 : ℚ) - 1) * (((100 : ℕ) : ℚ) + ((2060 : ℕ) : ℚ)) / 1),
       floorNat (((2 : ℚ) - 1) * (((100 : ℕ) : ℚ) + ((2060 : ℕ) : ℚ)) / 1)) :=
  ⟨by norm_num,
    (c3_autoIntegStep_amended 2 1 100 2060 0).1 (by norm_num)⟩

/-!
## Black subtraction and bandpass correction (`getData` lines 1468-1476,
`C12666MA::getMeasurement` lines 1481-1498)

`data_` and `blackLevels_` are float arrays of length `SPEC_PIXELS`,
modelled as `ℚ` lists with the pixel count as a parameter.
-/

/-- `getData` (lines 1468-1476): optional black subtraction clamped at 0. -/
def getData (pixelIdx : ℕ) (subtractBlack : Bool) (data black : List ℚ) : ℚ :=
  if !subtractBlack then data.getD pixelIdx 0
  else if data.getD pixelIdx 0 < black.getD pixelIdx 0 then 0
  else data.getD pixelIdx 0 - black.getD pixelIdx 0

/-- `C12666MA::getMeasurement` (lines 1481-1498): black subtraction through
`getData`, then the Stearns and Stearns bandpass correction when enabled. -/
def getMeasurement (nPixels pixelIdx : ℕ) (subtractBlack applyBandPassCorrection : Bool)
    (data black : List ℚ) : ℚ :=
  let d := getData pixelIdx subtractBlack data black
  if applyBandPassCorrection then
    if pixelIdx = 0 then
      1083/1000 * d - 83/1000 * getData (pixelIdx + 1) subtractBlack data black
    else if pixelIdx = nPixels - 1 then
      1083/1000 * d - 83/1000 * getData (pixelIdx - 1) subtractBlack data black
    else
      1166/1000 * d - 83/1000 * getData (pixelIdx - 1) subtractBlack data black
        - 83/1000 * getData (pixelIdx + 1) subtractBlack data black
  else
    d

/-- Counterexample to C4: with bandpass correction enabled, measurement
vector `[0, 1]`, black levels `[0, 0]`, pixel 0 with black subtraction
returns `1.083·0 − 0.083·1 = −0.083 < 0`. -/
theorem c4_bandpass_counterexample :
    getMeasurement 2 0 true true [0, 1] [0, 0] = -83/1000 ∧
    ¬ (0 : ℚ) ≤ getMeasurement 2 0 true true [0, 1] [0, 0] := by
  have h : getMeasurement 2 0 true true [0, 1] [0, 0] = -83/1000 := by
    simp [getMeasurement, getData]
    norm_num
  exact ⟨h, by rw [h]; norm_num⟩

/-- C4 (amended): with black subtraction requested,
`getMeasurement(p, subtractBlack=true)` is nonnegative whenever bandpass
correction is disabled (the subtracted value is clamped at 0); with
bandpass correction enabled the result can be negative, as the
counterexample shows. -/
theorem c4_blackSubtract_nonneg (nPixels pixelIdx : ℕ) (data black : List ℚ) :
    0 ≤ getMeasurement nPixels pixelIdx true false data black := by
  have hd : 0 ≤ getData pixelIdx true data black := by
    unfold getData
    simp only [Bool.not_true, Bool.false_eq_true, if_false]
    split
    · exact le_refl 0
    · rename_i h
      exact sub_nonneg.mpr (le_of_not_lt h)
  simpa [getMeasurement] using hd

/-!
## Lead-tick computation at acquisition start (`startSpecTimer`,
C12666MA.cpp lines 536-558)

Modelled for the branch with external triggering enabled
(`doExtTriggering && extPinTRG != NO_PIN && extTrgMeasDelay > 0`): the
requested delay in microseconds is converted to ticks, rounded down to an
even count (`delayTimeTicks &= ~1`), and `LEAD_TICKS` is recomputed.
-/

/-- `LEAD_TICKS` computed by `startSpecTimer` (lines 540-549) when external
triggering is active, parameterised by `READ_TICKS`. -/
def startLeadTicks (readTicks extTrgMeasDelayUs : ℕ) : ℕ :=
  let delayTimeTicks := uSecToTicks extTrgMeasDelayUs
  let delayTimeTicks := delayTimeTicks - delayTimeTicks % 2
  if delayTimeTicks > DEF_LEAD_TICKS + readTicks + readTicks then
    delayTimeTicks - readTicks - readTicks
  else
    DEF_LEAD_TICKS

/-- The lead-tick count claimed by C5, built from the claim's words: fall
back to the default exactly when the delay in ticks is smaller than
`2·READ_TICKS + EXT_TRG_HIGH_TICKS`, otherwise delay minus the two readout
passes. Kept only to compare with the source behaviour. -/
def claimLeadTicks (readTicks extTrgMeasDelayUs : ℕ) : ℕ :=
  let d := uSecToTicks extTrgMeasDelayUs
  if d < readTicks + readTicks + EXT_TRG_HIGH_TICKS then DEF_LEAD_TICKS
  else d - readTicks - readTicks

/-- Counterexample to C5: for a 256-pixel sensor (`READ_TICKS = 2060`) and
a requested delay of 21100 µs (4220 ticks), the code compares against
`DEF_LEAD_TICKS + 2·READ_TICKS = 4184` and yields `4220 − 4120 = 100`,
while the claim's threshold `2·READ_TICKS + EXT_TRG_HIGH_TICKS = 4320`
would fall back to the default 64. -/
theorem c5_leadTicks_counterexample :
    startLeadTicks 2060 21100 = 100 ∧
    claimLeadTicks 2060 21100 = 64 ∧
    (100 : ℕ) ≠ 64 := by
  refine ⟨?_, ?_, by norm_num⟩
  · simp [startLeadTicks, uSecToTicks, TIMER_US_FACTOR, SPEC_CLK_TICK_TIMER, DEF_LEAD_TICKS]
  · simp [claimLeadTicks, uSecToTicks, TIMER_US_FACTOR, SPEC_CLK_TICK_TIMER,
      EXT_TRG_HIGH_TICKS, DEF_LEAD_TICKS]

/-- C5 (amended): at every start with external triggering enabled and a
positive requested delay, with `d` the requested delay in ticks rounded
down to an even count, the lead-tick count falls back to the default
minimum exactly when `d ≤ DEF_LEAD_TICKS + 2·READ_TICKS` (the threshold
involves the default lead count, not the trigger hold duration);
otherwise it equals `d − 2·READ_TICKS`. -/
theorem c5_leadTicks_amended (readTicks extTrgMeasDelayUs : ℕ) :
    (startLeadTicks readTicks extTrgMeasDelayUs = DEF_LEAD_TICKS ↔
      uSecToTicks extTrgMeasDelayUs - uSecToTicks extTrgMeasDelayUs % 2 ≤
        DEF_LEAD_TICKS + 2 * readTicks) ∧
    (DEF_LEAD_TICKS + 2 * readTicks <
        uSecToTicks extTrgMeasDelayUs - uSecToTicks extTrgMeasDelayUs % 2 →
      startLeadTicks readTicks extTrgMeasDelayUs =
        uSecToTicks extTrgMeasDelayUs - uSecToTicks extTrgMeasDelayUs % 2 - 2 * readTicks) := by
  simp only [startLeadTicks, DEF_LEAD_TICKS]
  constructor
  · split <;> rename_i h
    · constructor
      · intro he
        omega
      · intro hle
        omega
    · simp only [true_iff]
      omega
  · intro hlt
    split <;> rename_i h <;> omega

/-- Witness for C5 (amended): 21100 µs delay with 2060 read ticks exceeds
the threshold and yields `4220 − 4120 = 100` lead ticks. -/
theorem c5_leadTicks_witness :
    (DEF_LEAD_TICKS + 2 * 2060 <
      uSecToTicks 21100 - uSecToTicks 21100 % 2) ∧
    startLeadTicks 2060 21100 =
      uSecToTicks 21100 - uSecToTicks 21100 % 2 - 2 * 2060 :=
  ⟨by simp [uSecToTicks, TIMER_US_FACTOR, SPEC_CLK_TICK_TIMER, DEF_LEAD_TICKS],
    (c5_leadTicks_amended 2060 21100).2
      (by simp [uSecToTicks, TIMER_US_FACTOR, SPEC_CLK_TICK_TIMER, DEF_LEAD_TICKS])⟩

/-!
## Timing state machine (`spectroClockInterrupt`, C12666MA.cpp lines 408-520)

One invocation of the tick interrupt with the timer enabled. The pin
writes at the top of the handler output the previous `specCLK`/`specST`
values; the handler then flips `specCLK` and advances the state machine.
The external light-trigger line (`extPinLIGHT`, configured when not
`NO_PIN`) is modelled as the Boolean `light`; the ADC data pointers are
omitted (they are not part of claim C6). The external-trigger down-counter
(lines 511-518) is likewise outside this claim and modelled separately for
C5.
-/

/-- `spec_state_t` from C12666MA.cpp lines 59-67. -/
inductive spec_state_t
  | SPEC_LEAD
  | SPEC_RESET
  | SPEC_RESET2
  | SPEC_INTEGRATION
  | SPEC_READ
  | SPEC_TRAIL
  | SPEC_STOP
deriving DecidableEq, Repr

/-- Constants of one acquisition as seen by the tick handler. -/
structure SpecTimerParams where
  leadTicks : ℕ
  readTicks : ℕ
  integTicks : ℕ
  trailTicks : ℕ
  table : List ℕ
  lightPinConfigured : Bool
deriving DecidableEq, Repr

/-- Mutable state advanced by `spectroClockInterrupt`. -/
structure SpecTimerState where
  state : spec_state_t
  counter : ℕ
  clk : Bool
  st : Bool
  dataReady : Bool
  light : Bool
deriving DecidableEq, Repr

/-- `specRead[i] & ST_BIT` as a Boolean. -/
def tableST (p : SpecTimerParams) (i : ℕ) : Bool := p.table.getD i 0 % 2 = 1

/-- `specRead[i] & READY_BIT` as a Boolean. -/
def tableReady (p : SpecTimerParams) (i : ℕ) : Bool := p.table.getD i 0 / 2 % 2 = 1

/-- One enabled invocation of `spectroClockInterrupt` (lines 408-508):
flips the clock and performs one state-machine step. -/
def specStep (p : SpecTimerParams) (s : SpecTimerState) : SpecTimerState :=
  let s := { s with clk := !s.clk }
  match s.state with
  | .SPEC_LEAD =>
      let c := s.counter + 1
      if c = p.leadTicks then
        { s with counter := 0, state := .SPEC_RESET, st := tableST p 0 }
      else
        { s with counter := c }
  | .SPEC_RESET =>
      let c := s.counter + 1
      if c = p.readTicks then
        { s with counter := 0, state := .SPEC_RESET2, st := tableST p 0 }
      else
        { s with counter := c, st := tableST p c }
  | .SPEC_RESET2 =>
      let c := s.counter + 1
      if c = p.readTicks then
        { s with counter := 0, state := .SPEC_INTEGRATION,
                 light := if p.lightPinConfigured then true else s.light }
      else
        { s with counter := c, st := tableST p c }
  | .SPEC_INTEGRATION =>
      let c := s.counter + 1
      if c = p.integTicks then
        { s with counter := 0, state := .SPEC_READ, st := tableST p 0 }
      else
        { s with counter := c }
  | .SPEC_READ =>
      let s := { s with dataReady := tableReady p s.counter }
      let c := s.counter + 1
      if c = p.readTicks then
        { s with counter := 0, state := .SPEC_TRAIL }
      else
        { s with counter := c, st := tableST p c }
  | .SPEC_TRAIL =>
      let c := s.counter + 1
      if c = p.trailTicks then
        { s with counter := 0, state := .SPEC_STOP, clk := false, st := false,
                 light := if p.lightPinConfigured then false else s.light }
      else
        { s with counter := c }
  | .SPEC_STOP =>
      { s with clk := false }

/-- Parameters of a 1-pixel acquisition with a configured light pin, used
for the C6 counterexample. -/
def c6Params : SpecTimerParams :=
  { leadTicks := DEF_LEAD_TICKS, readTicks := READ_TICKS 1,
    integTicks := 200, trailTicks := TRAIL_TICKS,
    table := specRead 1, lightPinConfigured := true }

/-- Counterexample to C6: on the tick that enters `SPEC_RESET2` (the last
tick of `SPEC_RESET`), the external light-trigger line is not asserted —
the machine is in `SPEC_RESET2` with the light still low. -/
theorem c6_light_counterexample :
    (specStep c6Params
        { state := .SPEC_RESET, counter := READ_TICKS 1 - 1, clk := true,
          st := true, dataReady := false, light := false }).state = .SPEC_RESET2 ∧
    (specStep c6Params
        { state := .SPEC_RESET, counter := READ_TICKS 1 - 1, clk := true,
          st := true, dataReady := false, light := false }).light = false := by
  constructor <;> rfl

/-- C6 (amended): when the external light-trigger line is configured, the
state machine asserts it on the tick on which it leaves `SPEC_RESET2` and
enters `SPEC_INTEGRATION` (the `specCounter == READ_TICKS` transition of
the `SPEC_RESET2` case), not on entry to `SPEC_RESET2`. -/
theorem c6_light_amended (p : SpecTimerParams) (s : SpecTimerState)
    (hpin : p.lightPinConfigured = true)
    (hstate : s.state = .SPEC_RESET2)
    (hctr : s.counter + 1 = p.readTicks) :
    (specStep p s).state = .SPEC_INTEGRATION ∧ (specStep p s).light = true := by
  unfold specStep
  rw [hstate]
  simp only [hctr, if_pos rfl, hpin, if_pos rfl]
  exact ⟨rfl, rfl⟩

/-- Witness for C6 (amended): the last `SPEC_RESET2` tick of the 1-pixel
acquisition asserts the light line and enters integration. -/
theorem c6_light_witness :
    (c6Params.lightPinConfigured = true) ∧
    ((19 : ℕ) + 1 = c6Params.readTicks) ∧
    (specStep c6Params
        { state := .SPEC_RESET2, counter := 19, clk := true,
          st := true, dataReady := false, light := false }).state = .SPEC_INTEGRATION ∧
    (specStep c6Params
        { state := .SPEC_RESET2, counter := 19, clk := true,
          st := true, dataReady := false, light := false }).light = true := by
  refine ⟨rfl, rfl, ?_⟩
  exact c6_light_amended c6Params _ rfl rfl rfl

/-!
## Colorimetry (`calculateColourParam`, spectron_cct.cpp lines 147-179)

The XYZ accumulation loop and the chromaticity guard. The CIE standard
observer approximations `xFunc_1931`/`yFunc_1931`/`zFunc_1931` are sums
of Gaussians (they use `exp`), so they are passed as function parameters
`obsX`/`obsY`/`obsZ`; the per-pixel measurement `getLastMeasurement` and
`getWavelength` of the device are likewise inputs. Claim C7 concerns only
the guard on `sumXYZ`, which is independent of those values. The CCT
computation (`XYZtoCorColorTemp`) is outside this claim.
-/

/-- `dLamda` of one loop iteration (lines 155-161). -/
def dLamda (wl : ℕ → ℚ) (totalPixels i : ℕ) : ℚ :=
  if i = 0 then (wl (i + 1) - wl i) / 2
  else if i = totalPixels - 1 then (wl i - wl (i - 1)) / 2
  else (wl (i + 1) - wl (i - 1)) / 2

/-- The `xyz[3]` accumulation loop (lines 152-166). -/
def xyzSums (obsX obsY obsZ : ℚ → ℚ) (meas wl : ℕ → ℚ) (totalPixels : ℕ) : ℚ × ℚ × ℚ :=
  (List.range totalPixels).foldl
    (fun xyz i =>
      let dL := dLamda wl totalPixels i
      let curWavelength := wl i
      (xyz.1 + meas i * obsX curWavelength * dL,
       xyz.2.1 + meas i * obsY curWavelength * dL,
       xyz.2.2 + meas i * obsZ curWavelength * dL))
    (0, 0, 0)

/-- The chromaticity outputs `(x, y)` of `calculateColourParam`
(lines 168-176): `if (sumXYZ) { x = X/sum; y = Y/sum; } else x = y = 0;`.
The C guard tests the float against exactly zero. -/
def calculateColourXY (obsX obsY obsZ : ℚ → ℚ) (meas wl : ℕ → ℚ) (totalPixels : ℕ) : ℚ × ℚ :=
  let xyz := xyzSums obsX obsY obsZ meas wl totalPixels
  let sumXYZ := xyz.1 + xyz.2.1 + xyz.2.2
  if sumXYZ ≠ 0 then (xyz.1 / sumXYZ, xyz.2.1 / sumXYZ) else (0, 0)

/-- Inputs for the C7 counterexample: 2 pixels, unit X observer, zero Y
and Z observers, first measurement 10⁻³⁰, wavelengths 0 and 2. -/
def c7meas : ℕ → ℚ := fun i => if i = 0 then 1 / 10 ^ 30 else 0

/-- Wavelength map for the C7 counterexample. -/
def c7wl : ℕ → ℚ := fun i => 2 * i

/-- Counterexample to C7: the accumulated sum X+Y+Z equals 10⁻³⁰, far
below the code's only near-zero threshold 10⁻²⁰ (the degenerate-XYZ guard
of `XYZtoCorColorTemp`) and below any positive near-zero threshold one
could read the claim with, yet `calculateColourParam` computes
`x = X/(X+Y+Z) = 1`, not 0: the chromaticity guard fires on an exactly
zero sum only. -/
theorem c7sums_eval :
    xyzSums (fun _ => 1) (fun _ => 0) (fun _ => 0) c7meas c7wl 2 =
      (1 / 10 ^ 30, 0, 0) := by
  simp only [xyzSums, List.range_succ, List.range_zero, List.nil_append,
    List.cons_append, List.foldl_cons, List.foldl_nil, dLamda, c7meas, c7wl]
  norm_num

theorem c7_chromaticity_counterexample :
    (let xyz := xyzSums (fun _ => 1) (fun _ => 0) (fun _ => 0) c7meas c7wl 2
     xyz.1 + xyz.2.1 + xyz.2.2 = 1 / 10 ^ 30) ∧
    ((0 : ℚ) < 1 / 10 ^ 30 ∧ (1 : ℚ) / 10 ^ 30 < 1 / 10 ^ 20) ∧
    (calculateColourXY (fun _ => 1) (fun _ => 0) (fun _ => 0) c7meas c7wl 2).1 = 1 := by
  refine ⟨by rw [c7sums_eval]; norm_num, by norm_num, ?_⟩
  rw [calculateColourXY, c7sums_eval]
  norm_num

/-- C7 (amended): `calculateColourParam` sets both chromaticity outputs to
0 exactly when the accumulated sum X+Y+Z is zero; for every nonzero sum —
however small — it sets `x = X/(X+Y+Z)` and `y = Y/(X+Y+Z)`. -/
theorem c7_chromaticity_amended (obsX obsY obsZ : ℚ → ℚ) (meas wl : ℕ → ℚ)
    (totalPixels : ℕ) :
    (let xyz := xyzSums obsX obsY obsZ meas wl totalPixels
     (xyz.1 + xyz.2.1 + xyz.2.2 = 0 →
        calculateColourXY obsX obsY obsZ meas wl totalPixels = (0, 0)) ∧
     (xyz.1 + xyz.2.1 + xyz.2.2 ≠ 0 →
        calculateColourXY obsX obsY obsZ meas wl totalPixels =
          (xyz.1 / (xyz.1 + xyz.2.1 + xyz.2.2),
           xyz.2.1 / (xyz.1 + xyz.2.1 + xyz.2.2)))) := by
  refine ⟨?_, ?_⟩
  · intro h
    rw [calculateColourXY, if_neg (by simpa using h)]
  · intro h
    rw [calculateColourXY, if_pos (by simpa using h)]

/-- Witness for C7 (amended): the counterexample inputs have a nonzero sum
and produce the quotient chromaticity. -/
theorem c7_chromaticity_witness :
    calculateColourXY (fun _ => 1) (fun _ => 0) (fun _ => 0) c7meas c7wl 2 =
      ((xyzSums (fun _ => 1) (fun _ => 0) (fun _ => 0) c7meas c7wl 2).1 /
        ((xyzSums (fun _ => 1) (fun _ => 0) (fun _ => 0) c7meas c7wl 2).1 +
         (xyzSums (fun _ => 1) (fun _ => 0) (fun _ => 0) c7meas c7wl 2).2.1 +
         (xyzSums (fun _ => 1) (fun _ => 0) (fun _ => 0) c7meas c7wl 2).2.2),
       (xyzSums (fun _ => 1) (fun _ => 0) (fun _ => 0) c7meas c7wl 2).2.1 /
        ((xyzSums (fun _ => 1) (fun _ => 0) (fun _ => 0) c7meas c7wl 2).1 +
         (xyzSums (fun _ => 1) (fun _ => 0) (fun _ => 0) c7meas c7wl 2).2.1 +
         (xyzSums (fun _ => 1) (fun _ => 0) (fun _ => 0) c7meas c7wl 2).2.2)) :=
  (c7_chromaticity_amended (fun _ => 1) (fun _ => 0) (fun _ => 0) c7meas c7wl 2).2
    (by rw [c7sums_eval]; norm_num)

/-!
## Saturation voltage setters (`C12666MA::setSaturationVoltages`,
lines 1283-1312)

The member fields `satVoltageHighGain_`/`satVoltageNoGain_` are the
"stored" values; the function only touches a stored value when the
corresponding input is strictly positive.
-/

/-- `setSaturationVoltages` (EEPROM writes omitted): given the two inputs
and the currently stored pair, returns the stored pair afterwards. -/
def setSaturationVoltages (satVoltageHighGain satVoltageNoGain : ℚ)
    (curHighGain curNoGain : ℚ) : ℚ × ℚ :=
  let hg :=
    if satVoltageHighGain > 0 then
      if MIN_SAT_VOLTAGE_HIGH_GAIN ≤ satVoltageHighGain ∧
          satVoltageHighGain ≤ MAX_SAT_VOLTAGE_HIGH_GAIN
      then satVoltageHighGain else MIN_SAT_VOLTAGE_HIGH_GAIN
    else curHighGain
  let ng :=
    if satVoltageNoGain > 0 then
      if MIN_SAT_VOLTAGE_NO_GAIN ≤ satVoltageNoGain ∧
          satVoltageNoGain ≤ MAX_SAT_VOLTAGE_NO_GAIN
      then satVoltageNoGain else MIN_SAT_VOLTAGE_NO_GAIN
    else curNoGain
  (hg, ng)

/-- Counterexample to C8: the input pair (0, 2) has its high-gain entry 0
outside the Hamamatsu bounds [2.3, 4.0], yet with stored values (3, 2) the
call leaves the stored high-gain voltage at 3 instead of resetting it to
the spec minimum 2.3: non-positive inputs are ignored entirely. -/
theorem c8_satVoltages_counterexample :
    setSaturationVoltages 0 2 3 2 = (3, 2) ∧
    (3 : ℚ) ≠ MIN_SAT_VOLTAGE_HIGH_GAIN := by
  constructor
  · simp [setSaturationVoltages, MIN_SAT_VOLTAGE_NO_GAIN, MAX_SAT_VOLTAGE_NO_GAIN]
    norm_num
  · rw [MIN_SAT_VOLTAGE_HIGH_GAIN]
    norm_num

/-- C8 (amended): for every strictly positive input, `setSaturationVoltages`
stores an in-range input unchanged and resets an out-of-range input to the
spec minimum for that gain (high gain checked against [2.3, 4.0], no gain
against [1.4, 2.7]); a non-positive input leaves the corresponding stored
value unchanged. -/
theorem satChannelUpdate_spec (inV minV maxV cur : ℚ) :
    (0 < inV → minV ≤ inV → inV ≤ maxV →
      (if inV > 0 then if minV ≤ inV ∧ inV ≤ maxV then inV else minV else cur) = inV) ∧
    (0 < inV → ¬(minV ≤ inV ∧ inV ≤ maxV) →
      (if inV > 0 then if minV ≤ inV ∧ inV ≤ maxV then inV else minV else cur) = minV) ∧
    (inV ≤ 0 →
      (if inV > 0 then if minV ≤ inV ∧ inV ≤ maxV then inV else minV else cur) = cur) := by
  refine ⟨fun h1 h2 h3 => ?_, fun h1 h2 => ?_, fun h1 => ?_⟩
  · rw [if_pos h1, if_pos ⟨h2, h3⟩]
  · rw [if_pos h1, if_neg h2]
  · rw [if_neg (not_lt.mpr h1)]

theorem c8_satVoltages_amended (hgIn ngIn curHG curNG : ℚ) :
    ((0 < hgIn → MIN_SAT_VOLTAGE_HIGH_GAIN ≤ hgIn → hgIn ≤ MAX_SAT_VOLTAGE_HIGH_GAIN →
        (setSaturationVoltages hgIn ngIn curHG curNG).1 = hgIn) ∧
     (0 < hgIn → ¬(MIN_SAT_VOLTAGE_HIGH_GAIN ≤ hgIn ∧ hgIn ≤ MAX_SAT_VOLTAGE_HIGH_GAIN) →
        (setSaturationVoltages hgIn ngIn curHG curNG).1 = MIN_SAT_VOLTAGE_HIGH_GAIN) ∧
     (hgIn ≤ 0 → (setSaturationVoltages hgIn ngIn curHG curNG).1 = curHG)) ∧
    ((0 < ngIn → MIN_SAT_VOLTAGE_NO_GAIN ≤ ngIn → ngIn ≤ MAX_SAT_VOLTAGE_NO_GAIN →
        (setSaturationVoltages hgIn ngIn curHG curNG).2 = ngIn) ∧
     (0 < ngIn → ¬(MIN_SAT_VOLTAGE_NO_GAIN ≤ ngIn ∧ ngIn ≤ MAX_SAT_VOLTAGE_NO_GAIN) →
        (setSaturationVoltages hgIn ngIn curHG curNG).2 = MIN_SAT_VOLTAGE_NO_GAIN) ∧
     (ngIn ≤ 0 → (setSaturationVoltages hgIn ngIn curHG curNG).2 = curNG)) :=
  ⟨satChannelUpdate_spec hgIn MIN_SAT_VOLTAGE_HIGH_GAIN MAX_SAT_VOLTAGE_HIGH_GAIN curHG,
   satChannelUpdate_spec ngIn MIN_SAT_VOLTAGE_NO_GAIN MAX_SAT_VOLTAGE_NO_GAIN curNG⟩

/-- Witness for C8 (amended): a positive out-of-range high-gain input 5 is
reset to the spec minimum, an in-range no-gain input 2 is stored. -/
theorem c8_satVoltages_witness :
    ((0 : ℚ) < 5) ∧ ¬(MIN_SAT_VOLTAGE_HIGH_GAIN ≤ 5 ∧ (5 : ℚ) ≤ MAX_SAT_VOLTAGE_HIGH_GAIN) ∧
    (setSaturationVoltages 5 2 3 2).1 = MIN_SAT_VOLTAGE_HIGH_GAIN ∧
    (setSaturationVoltages 5 2 3 2).2 = 2 :=
  ⟨by norm_num,
   by rw [MIN_SAT_VOLTAGE_HIGH_GAIN, MAX_SAT_VOLTAGE_HIGH_GAIN]; norm_num,
   (c8_satVoltages_amended 5 2 3 2).1.2.1 (by norm_num)
     (by rw [MIN_SAT_VOLTAGE_HIGH_GAIN, MAX_SAT_VOLTAGE_HIGH_GAIN]; norm_num),
   (c8_satVoltages_amended 5 2 3 2).2.1 (by norm_num)
     (by rw [MIN_SAT_VOLTAGE_NO_GAIN]; norm_num)
     (by rw [MAX_SAT_VOLTAGE_NO_GAIN]; norm_num)⟩

/-!
## Integration time setter and getter (`C12666MA::setIntTime` lines
909-941, `C12666MA::getIntTime` lines 944-947)

All quantities are `uint32_t`; for the supported request range none of the
intermediate values exceeds 10⁸ (far below 2³²) and
`intTime/SPEC_CLK_TICK_TIMER ≥ READ_TICKS` holds after the lower clamp,
so the unsigned arithmetic never wraps and `ℕ` models it exactly.
-/

/-- `setIntTime` (lines 909-941): the value of `INTEG_TICKS` after
`setIntTime(timeUs)`, parameterised by `SPEC_PIXELS`. -/
def setIntTime (nPixels timeUs : ℕ) : ℕ :=
  let intTime := timeUs * TIMER_US_FACTOR
  let minIntTime := SPEC_CLK_TICK_TIMER * READ_TICKS nPixels +
    MIN_INTEG_TIME_US * TIMER_US_FACTOR
  let intTime := if intTime < minIntTime then minIntTime else intTime
  let intTime := if intTime > MAX_INTEG_TIME_US * TIMER_US_FACTOR
    then MAX_INTEG_TIME_US * TIMER_US_FACTOR else intTime
  let integTicks := intTime / SPEC_CLK_TICK_TIMER - READ_TICKS nPixels + 1
  let integTicks := if integTicks = 0 then uSecToTicks MIN_INTEG_TIME_US else integTicks
  if integTicks % 2 = 1 then integTicks + 1 else integTicks

/-- `getIntTime` (lines 944-947): `ticksToUsec(INTEG_TICKS+READ_TICKS)`. -/
def getIntTime (nPixels integTicks : ℕ) : ℕ :=
  ticksToUsec (integTicks + READ_TICKS nPixels)

/-- Counterexample to C9: on a 256-pixel sensor a requested integration
time of 1000000 µs is an exact multiple of the 5 µs tick (and of the 10 µs
clock cycle), yet `setIntTime(1000000)` followed by `getIntTime()` returns
1000010 µs: the `+ 1` and the evening-up of `INTEG_TICKS` always overshoot
the request, so the round trip is not the request rounded to the tick
grid. -/
theorem c9_intTime_counterexample :
    getIntTime 256 (setIntTime 256 1000000) = 1000010 ∧
    (1000000 : ℕ) % 5 = 0 ∧
    (1000010 : ℕ) ≠ 1000000 := by
  refine ⟨?_, by norm_num, by norm_num⟩
  rfl

/-- C9 (amended): on a 256-pixel sensor, for every requested integration
time in the unclamped supported range (11300 µs up to 10 s), setIntTime
followed by getIntTime returns the requested microseconds rounded down to
the 10 µs double-tick grid plus one extra 10 µs clock cycle:
`getIntTime = 10·⌊timeUs/10⌋ + 10`. The round trip therefore always
exceeds the request and never returns it exactly. -/
theorem c9_intTime_amended (timeUs : ℕ) (hlo : 11300 ≤ timeUs)
    (hhi : timeUs ≤ 10000000) :
    getIntTime 256 (setIntTime 256 timeUs) = 10 * (timeUs / 10) + 10 := by
  have hset : setIntTime 256 timeUs =
      (if (timeUs * 10 / 50 - 2059) % 2 = 1 then timeUs * 10 / 50 - 2059 + 1
       else timeUs * 10 / 50 - 2059) := by
    simp only [setIntTime, uSecToTicks, READ_TICKS, TICKS_PER_PIXEL, TRAIL_TICKS,
      SPEC_CLK_TICK_TIMER, TIMER_US_FACTOR, MIN_INTEG_TIME_US, MAX_INTEG_TIME_US]
    rw [if_neg (by omega : ¬ timeUs * 10 < 50 * (256 * 8 + 12) + 1000 * 10)]
    rw [if_neg (by omega : ¬ timeUs * 10 > 10000000 * 10)]
    rw [if_neg (by omega : ¬ timeUs * 10 / 50 - (256 * 8 + 12) + 1 = 0)]
    have he : timeUs * 10 / 50 - (256 * 8 + 12) + 1 = timeUs * 10 / 50 - 2059 := by
      omega
    rw [he]
  rw [hset]
  simp only [getIntTime, ticksToUsec, READ_TICKS, TICKS_PER_PIXEL, TRAIL_TICKS,
    SPEC_CLK_TICK_TIMER, TIMER_US_FACTOR]
  split <;> rename_i hpar <;> omega

/-- Witness for C9 (amended): requesting 20000 µs rounds to
`10·2000 + 10 = 20010` µs. -/
theorem c9_intTime_witness :
    (11300 ≤ 20000) ∧ (20000 ≤ 10000000) ∧
    getIntTime 256 (setIntTime 256 20000) = 10 * (20000 / 10) + 10 :=
  ⟨by norm_num, by norm_num, c9_intTime_amended 20000 (by norm_num) (by norm_num)⟩

/-!
## One-off duration override (`C12666MA::readSpectrometer`,
lines 1219-1272)

The routine saves `INTEG_TICKS`, applies `setIntTime(timeUs, false)` only
when `timeUs > 0`, runs the acquisition with the resulting tick count, and
restores the saved value afterwards exactly when `timeUs > 0`. Only the
`INTEG_TICKS` effect is modelled: the function returns the tick count the
acquisition ran with and the tick count left behind on return.
`takeMeasurement` (lines 1179-1192) and `takeBlackMeasurement` (lines
1195-1208) pass their duration argument straight through.
-/

/-- `readSpectrometer`'s effect on `INTEG_TICKS`: `(ticks used during the
acquisition, ticks after return)`. -/
def readSpectrometer_integTicks (nPixels timeUs curIntegTicks : ℕ) : ℕ × ℕ :=
  let savedIntegration := curIntegTicks
  let active := if timeUs > 0 then setIntTime nPixels timeUs else curIntegTicks
  let final := if timeUs > 0 then savedIntegration else active
  (active, final)

/-- C10: for every non-zero duration override, `readSpectrometer` runs the
acquisition with `setIntTime(timeUs)` ticks but restores the previously
configured integration tick count on return, leaving the persistent
setting unchanged. -/
theorem c10_readSpectrometer_restores (nPixels timeUs curIntegTicks : ℕ)
    (h : 0 < timeUs) :
    (readSpectrometer_integTicks nPixels timeUs curIntegTicks).2 = curIntegTicks ∧
    (readSpectrometer_integTicks nPixels timeUs curIntegTicks).1 =
      setIntTime nPixels timeUs := by
  simp [readSpectrometer_integTicks, h]

/-- Witness for C10: a 5000 µs override on a 256-pixel sensor with 777
configured ticks runs with `setIntTime 256 5000` ticks and leaves 777
behind. -/
theorem c10_readSpectrometer_witness :
    (0 < 5000) ∧
    (readSpectrometer_integTicks 256 5000 777).2 = 777 ∧
    (readSpectrometer_integTicks 256 5000 777).1 = setIntTime 256 5000 :=
  ⟨by norm_num, c10_readSpectrometer_restores 256 5000 777 (by norm_num)⟩

end Spectron
